import Mathlib

/-!
Verification of the AlgorithmicTrading repository.

Part 1 embeds `src/Options Arbitrage/black_scholes.py`: the Black-Scholes
closed-form prices and Greeks, translated over the real numbers.  The
standard normal CDF and PDF (scipy's `stats.norm(0, 1).cdf` / `.pdf`,
external primitives per the design) are given their mathematical
definitions as Gaussian integrals.

Part 2 embeds `src/Statistical Arbitrage/cointegration_analysis.py`: the
Engle-Granger two-step cointegration procedure, translated over the
rationals, with the input assertions modelled as an `Except`-valued
validation pipeline and the external OLS solver and ADF test modelled per
the design document.
-/

namespace AlgoTrading

open MeasureTheory Real Set

/-- The standard normal density up to normalisation: `exp (-t^2 / 2)`. -/
noncomputable def gaussKernel (t : ℝ) : ℝ := Real.exp (-t ^ 2 / 2)

/-- `scipy.stats.norm(0, 1).cdf`: the standard normal cumulative
distribution function, an external primitive of the source. -/
noncomputable def norm_cdf (x : ℝ) : ℝ :=
  (∫ t in Iic x, gaussKernel t) / Real.sqrt (2 * π)

/-- `scipy.stats.norm(0, 1).pdf`: the standard normal probability density
function, an external primitive of the source. -/
noncomputable def norm_pdf (x : ℝ) : ℝ := gaussKernel x / Real.sqrt (2 * π)

/-- `_d1` from black_scholes.py:
`(np.log(S / K) + (r + 0.5 * sigma ** 2) * T) / (sigma * np.sqrt(T))`. -/
noncomputable def d1 (S K T r sigma : ℝ) : ℝ :=
  (Real.log (S / K) + (r + 0.5 * sigma ^ 2) * T) / (sigma * Real.sqrt T)

/-- `_d2` from black_scholes.py: `_d1(S, K, T, r, sigma) - sigma * np.sqrt(T)`. -/
noncomputable def d2 (S K T r sigma : ℝ) : ℝ :=
  d1 S K T r sigma - sigma * Real.sqrt T

/-- `call_value` from black_scholes.py:
`S * _norm_cdf(_d1(...)) - K * np.exp(-r * T) * _norm_cdf(_d2(...))`. -/
noncomputable def call_value (S K T r sigma : ℝ) : ℝ :=
  S * norm_cdf (d1 S K T r sigma) - K * Real.exp (-r * T) * norm_cdf (d2 S K T r sigma)

/-- `put_value` from black_scholes.py:
`np.exp(-r * T) * K * _norm_cdf(-_d2(...)) - S * _norm_cdf(-_d1(...))`. -/
noncomputable def put_value (S K T r sigma : ℝ) : ℝ :=
  Real.exp (-r * T) * K * norm_cdf (-(d2 S K T r sigma)) - S * norm_cdf (-(d1 S K T r sigma))

/-- `call_delta` from black_scholes.py: `_norm_cdf(_d1(...))`. -/
noncomputable def call_delta (S K T r sigma : ℝ) : ℝ :=
  norm_cdf (d1 S K T r sigma)

/-- `put_delta` from black_scholes.py: `call_delta(S, K, T, r, sigma) - 1`. -/
noncomputable def put_delta (S K T r sigma : ℝ) : ℝ :=
  call_delta S K T r sigma - 1

/-- `call_vega` from black_scholes.py: `S * _norm_pdf(_d1(...)) * np.sqrt(T)`. -/
noncomputable def call_vega (S K T r sigma : ℝ) : ℝ :=
  S * norm_pdf (d1 S K T r sigma) * Real.sqrt T

/-- `put_vega` from black_scholes.py: `call_vega(S, K, T, r, sigma)`. -/
noncomputable def put_vega (S K T r sigma : ℝ) : ℝ :=
  call_vega S K T r sigma

lemma gaussKernel_eq (t : ℝ) : gaussKernel t = Real.exp (-(1 / 2 : ℝ) * t ^ 2) := by
  unfold gaussKernel
  ring_nf

lemma integrable_gaussKernel : Integrable gaussKernel := by
  have h := integrable_exp_neg_mul_sq (by norm_num : (0 : ℝ) < 1 / 2)
  refine h.congr ?_
  filter_upwards with t
  rw [gaussKernel_eq]

lemma gaussKernel_nonneg (t : ℝ) : 0 ≤ gaussKernel t := (Real.exp_pos _).le

lemma integral_gaussKernel : (∫ t, gaussKernel t) = Real.sqrt (2 * π) := by
  have h := integral_gaussian (1 / 2 : ℝ)
  have heq : (∫ t, gaussKernel t) = ∫ t : ℝ, Real.exp (-(1 / 2 : ℝ) * t ^ 2) := by
    congr 1
    funext t
    exact gaussKernel_eq t
  rw [heq, h]
  rw [show (2 : ℝ) * π = π / (1 / 2) by ring]

lemma sqrt_two_pi_pos : 0 < Real.sqrt (2 * π) :=
  Real.sqrt_pos.mpr (by positivity)

/-- Complement identity of the standard normal CDF. -/
lemma norm_cdf_add_norm_cdf_neg (x : ℝ) : norm_cdf x + norm_cdf (-x) = 1 := by
  unfold norm_cdf
  rw [div_add_div_same, div_eq_one_iff_eq sqrt_two_pi_pos.ne.symm]
  have hneg : (∫ t in Iic (-x), gaussKernel t) = ∫ t in Ioi x, gaussKernel t := by
    have heven : (∫ t in Iic (-x), gaussKernel t) = ∫ t in Iic (-x), gaussKernel (-t) := by
      refine setIntegral_congr_fun measurableSet_Iic ?_
      intro t _
      unfold gaussKernel
      ring_nf
    rw [heven, integral_comp_neg_Iic, neg_neg]
  rw [hneg]
  rw [intervalIntegral.integral_Iic_add_Ioi integrable_gaussKernel.integrableOn
    integrable_gaussKernel.integrableOn]
  exact integral_gaussKernel

lemma norm_cdf_nonneg (x : ℝ) : 0 ≤ norm_cdf x := by
  unfold norm_cdf
  apply div_nonneg _ sqrt_two_pi_pos.le
  exact setIntegral_nonneg measurableSet_Iic fun t _ => gaussKernel_nonneg t

lemma norm_cdf_le_one (x : ℝ) : norm_cdf x ≤ 1 := by
  unfold norm_cdf
  rw [div_le_one sqrt_two_pi_pos]
  calc (∫ t in Iic x, gaussKernel t)
      ≤ ∫ t, gaussKernel t := by
        refine setIntegral_le_integral integrable_gaussKernel ?_
        filter_upwards with t
        exact gaussKernel_nonneg t
    _ = Real.sqrt (2 * π) := integral_gaussKernel

/-! Part 2: cointegration_analysis.py.  Float values are embedded as
rationals; a missing value (NaN) is `Option.none`.  A `pd.Series` is an
index together with a value column of equal length. -/

/-- A pandas Series: an index of time points paired with a column of
values, where a missing value (NaN) is `none`. -/
structure PSeries where
  index : List Int
  values : List (Option ℚ)
  hlen : values.length = index.length

/-- `s.isnull()` summed: the number of missing values in the series. -/
def numNull (s : PSeries) : Nat := (s.values.filter Option.isNone).length

/-- The value column of a series with its missing entries dropped; on a
series that passes the no-NaN validation this is the whole column. -/
def vals (s : PSeries) : List ℚ := s.values.filterMap id

/-- A Python argument as the two functions see it: either an actual
`pd.Series`, or any other ordered sequence of floats (e.g. a plain list or
numpy array), which fails the `isinstance` assertion. -/
inductive PyVal where
  | series (s : PSeries)
  | floats (l : List ℚ)

/-- The five `assert` statements guarding both public functions, one
constructor per assertion message, in source order. -/
inductive AssertErr where
  | notSeriesY
  | notSeriesX
  | nanY
  | nanX
  | indexMismatch
deriving DecidableEq

/-- The five input assertions shared verbatim by
`estimate_long_run_short_run_relationships` and
`engle_granger_two_step_cointegration_test` (cointegration_analysis.py
lines 45-49 and 97-101), in source order: y is a Series, x is a Series,
y has no NaN, x has no NaN, the two indexes are equal. -/
def checkInputs (y x : PyVal) : Except AssertErr (PSeries × PSeries) :=
  match y with
  | .floats _ => .error .notSeriesY
  | .series ys =>
    match x with
    | .floats _ => .error .notSeriesX
    | .series xs =>
      if numNull ys ≠ 0 then .error .nanY
      else if numNull xs ≠ 0 then .error .nanX
      else if ys.index ≠ xs.index then .error .indexMismatch
      else .ok (ys, xs)

/-- Dot product of two equal-length value columns. -/
def dot (a b : List ℚ) : ℚ := (List.zipWith (fun u v => u * v) a b).sum

/-- Modelled from the spec: the external OLS solver (statsmodels `OLS` with
`add_constant`, out of scope per the design) for one regressor plus an
intercept, returning `(c, gamma)` by the normal equations of least
squares. -/
def ols_with_const (xs ys : List ℚ) : ℚ × ℚ :=
  let n : ℚ := xs.length
  let sx := xs.sum
  let sy := ys.sum
  let sxx := dot xs xs
  let sxy := dot xs ys
  let g := (n * sxy - sx * sy) / (n * sxx - sx * sx)
  ((sy - g * sx) / n, g)

/-- Modelled from the spec: the residual column `fit.resid` of the OLS fit
with intercept, `z_t = y_t - (c + gamma * x_t)`. -/
def ols_resid (xs ys : List ℚ) : List ℚ :=
  let cg := ols_with_const xs ys
  List.zipWith (fun yv xv => yv - (cg.1 + cg.2 * xv)) ys xs

/-- Modelled from the spec: the external OLS solver without intercept
(statsmodels `OLS` on a single regressor, no constant), returning the
least-squares coefficient `dot v u / dot v v` of regressing `u` on `v`. -/
def ols_no_const (v u : List ℚ) : ℚ := dot v u / dot v v

/-- `y.diff().iloc[1:]`: the first-differenced column with its first
(undefined) entry dropped. -/
def diffTail (l : List ℚ) : List ℚ :=
  List.zipWith (fun a b => a - b) l.tail l.dropLast

/-- `estimate_long_run_short_run_relationships` from
cointegration_analysis.py: validate, fit y on x with intercept obtaining
`(c, gamma)` and residuals z, fit `y.diff().iloc[1:]` on
`z.shift().iloc[1:]` without intercept obtaining alpha, and return
`(c, gamma, alpha, z)`. -/
def estimate_long_run_short_run_relationships (y x : PyVal) :
    Except AssertErr (ℚ × ℚ × ℚ × List ℚ) :=
  match checkInputs y x with
  | .error e => .error e
  | .ok (ys, xs) =>
    let xv := vals xs
    let yv := vals ys
    let cg := ols_with_const xv yv
    let z := ols_resid xv yv
    let alpha := ols_no_const z.dropLast (diffTail yv)
    .ok (cg.1, cg.2, alpha, z)

/-- `engle_granger_two_step_cointegration_test` from
cointegration_analysis.py, parametric in the external ADF primitive
(`statsmodels.tsa.stattools.adfuller`, out of scope per the design): the
primitive receives the series, `maxlag`, and `autolag`; the source calls
it as `adfuller(z, maxlag=1, autolag=None)` and returns
`(adfstat, pvalue)`. -/
def engle_granger_two_step_cointegration_test
    (adfuller : List ℚ → Nat → Option String → ℚ × ℚ) (y x : PyVal) :
    Except AssertErr (ℚ × ℚ) :=
  match checkInputs y x with
  | .error e => .error e
  | .ok _ =>
    match estimate_long_run_short_run_relationships y x with
    | .error e => .error e
    | .ok r => .ok (adfuller r.2.2.2 1 none)

lemma filterMap_id_length_of_no_none (l : List (Option ℚ))
    (h : (l.filter Option.isNone).length = 0) :
    (l.filterMap id).length = l.length := by
  induction l with
  | nil => rfl
  | cons hd tl ih =>
    cases hd with
    | none => simp [List.filter] at h
    | some a =>
      simp only [List.filter, Option.isNone] at h
      simp [List.filterMap, ih h]

lemma vals_length_of_no_null (s : PSeries) (h : numNull s = 0) :
    (vals s).length = s.values.length :=
  filterMap_id_length_of_no_none s.values h

/-- Concrete series used by the witnesses: y over index [0, 1, 2]. -/
def wYSeries : PSeries := ⟨[0, 1, 2], [some 2, some 4, some 6], rfl⟩

/-- Concrete series used by the witnesses: x over index [0, 1, 2]. -/
def wXSeries : PSeries := ⟨[0, 1, 2], [some 1, some 2, some 3], rfl⟩

/-- Concrete series used by the witnesses: its index differs from those of
`wYSeries` and `wXSeries`. -/
def wBadSeries : PSeries := ⟨[0, 1, 7], [some 1, some 2, some 3], rfl⟩

/-- A concrete stand-in for the external ADF primitive, used by the
witnesses. -/
def wAdf : List ℚ → Nat → Option String → ℚ × ℚ := fun z l _ => (z.sum, (l : ℚ))

/-- Claim C1: put-call parity. For every S > 0, K > 0, T > 0, any real r and
sigma > 0, `call_value` minus `put_value` equals `S - K * exp (-r*T)` exactly
over real arithmetic, by the complement identity of the standard normal CDF
applied at d1 and d2. -/
theorem put_call_parity (S K T r sigma : ℝ) (hS : 0 < S) (hK : 0 < K)
    (hT : 0 < T) (hsigma : 0 < sigma) :
    call_value S K T r sigma - put_value S K T r sigma =
      S - K * Real.exp (-r * T) := by
  have h1 := norm_cdf_add_norm_cdf_neg (d1 S K T r sigma)
  have h2 := norm_cdf_add_norm_cdf_neg (d2 S K T r sigma)
  unfold call_value put_value
  linear_combination S * h1 - K * Real.exp (-r * T) * h2

/-- Witness for C1 at S = 2, K = 1, T = 1, r = 3, sigma = 1. -/
theorem put_call_parity_witness :
    (0 : ℝ) < 2 ∧
      call_value 2 1 1 3 1 - put_value 2 1 1 3 1 = 2 - 1 * Real.exp (-3 * 1) :=
  ⟨by norm_num,
    put_call_parity 2 1 1 3 1 (by norm_num) (by norm_num) (by norm_num) (by norm_num)⟩

/-- Claim C3: for every S > 0, K > 0, T > 0, any real r and sigma > 0,
`call_value` equals `S * Φ(d1) - K * exp (-r*T) * Φ(d2)` with
d1 = (ln (S/K) + (r + sigma^2/2) * T) / (sigma * sqrt T) and
d2 = d1 - sigma * sqrt T, Φ the standard normal CDF. -/
theorem call_value_formula (S K T r sigma : ℝ) (hS : 0 < S) (hK : 0 < K)
    (hT : 0 < T) (hsigma : 0 < sigma) :
    call_value S K T r sigma =
      S * norm_cdf ((Real.log (S / K) + (r + sigma ^ 2 / 2) * T) / (sigma * Real.sqrt T))
        - K * Real.exp (-r * T) *
          norm_cdf ((Real.log (S / K) + (r + sigma ^ 2 / 2) * T) / (sigma * Real.sqrt T)
            - sigma * Real.sqrt T) := by
  have harg : (Real.log (S / K) + (r + sigma ^ 2 / 2) * T) / (sigma * Real.sqrt T) =
      d1 S K T r sigma := by
    unfold d1
    ring_nf
  rw [harg]
  rfl

/-- Witness for C3 at S = 2, K = 1, T = 1, r = 3, sigma = 1. -/
theorem call_value_formula_witness :
    (0 : ℝ) < 2 ∧
      call_value 2 1 1 3 1 =
        2 * norm_cdf ((Real.log (2 / 1) + (3 + 1 ^ 2 / 2) * 1) / (1 * Real.sqrt 1))
          - 1 * Real.exp (-3 * 1) *
            norm_cdf ((Real.log (2 / 1) + (3 + 1 ^ 2 / 2) * 1) / (1 * Real.sqrt 1)
              - 1 * Real.sqrt 1) :=
  ⟨by norm_num,
    call_value_formula 2 1 1 3 1 (by norm_num) (by norm_num) (by norm_num) (by norm_num)⟩

/-- Claim C6: for every input, `put_delta` equals `call_delta - 1` exactly,
by construction. -/
theorem put_delta_eq_call_delta_sub_one (S K T r sigma : ℝ) :
    put_delta S K T r sigma = call_delta S K T r sigma - 1 := rfl

/-- Claim C7: for every input, `put_vega` equals `call_vega` exactly, by
construction. -/
theorem put_vega_eq_call_vega (S K T r sigma : ℝ) :
    put_vega S K T r sigma = call_vega S K T r sigma := rfl

/-- Claim C8: no OptionPricer operation has an error path: each of the six
functions is total, returning a real number at every input, including
non-positive S, K, T or sigma; there is no exception or failure value in
the codomain. -/
theorem option_pricer_total (S K T r sigma : ℝ) :
    (∃ v : ℝ, call_value S K T r sigma = v) ∧
    (∃ v : ℝ, put_value S K T r sigma = v) ∧
    (∃ v : ℝ, call_delta S K T r sigma = v) ∧
    (∃ v : ℝ, put_delta S K T r sigma = v) ∧
    (∃ v : ℝ, call_vega S K T r sigma = v) ∧
    (∃ v : ℝ, put_vega S K T r sigma = v) :=
  ⟨⟨_, rfl⟩, ⟨_, rfl⟩, ⟨_, rfl⟩, ⟨_, rfl⟩, ⟨_, rfl⟩, ⟨_, rfl⟩⟩

/-- Claim C9 (implicit): for S, K > 0, T > 0, sigma > 0, `call_delta` lies in
[0, 1] and consequently `put_delta` lies in [-1, 0], because `call_delta` is
the standard normal CDF evaluated at d1. -/
theorem call_delta_mem_unit_interval (S K T r sigma : ℝ) (hS : 0 < S)
    (hK : 0 < K) (hT : 0 < T) (hsigma : 0 < sigma) :
    0 ≤ call_delta S K T r sigma ∧ call_delta S K T r sigma ≤ 1 ∧
      -1 ≤ put_delta S K T r sigma ∧ put_delta S K T r sigma ≤ 0 := by
  have h0 := norm_cdf_nonneg (d1 S K T r sigma)
  have h1 := norm_cdf_le_one (d1 S K T r sigma)
  unfold put_delta call_delta
  unfold call_delta at *
  exact ⟨h0, h1, by linarith, by linarith⟩

/-- Witness for C9 at S = 2, K = 1, T = 1, r = 3, sigma = 1. -/
theorem call_delta_mem_unit_interval_witness :
    (0 : ℝ) < 2 ∧
      (0 ≤ call_delta 2 1 1 3 1 ∧ call_delta 2 1 1 3 1 ≤ 1 ∧
        -1 ≤ put_delta 2 1 1 3 1 ∧ put_delta 2 1 1 3 1 ≤ 0) :=
  ⟨by norm_num,
    call_delta_mem_unit_interval 2 1 1 3 1 (by norm_num) (by norm_num)
      (by norm_num) (by norm_num)⟩

/-- Claim C2: on validated inputs,
`estimate_long_run_short_run_relationships` (i) fits OLS with intercept of
y on x giving `(c, gamma)` and residuals z, (ii) fits OLS without
intercept of the first differences of y (first point dropped) on the
lagged residuals (last residual dropped) giving alpha, and (iii) returns
`(c, gamma, alpha, z)` with z the full-length residual column, the same
length as the y column, not the truncated one used for alpha. -/
theorem estimate_performs_two_step_ols (ys xs : PSeries)
    (hy : numNull ys = 0) (hx : numNull xs = 0)
    (hidx : ys.index = xs.index) :
    estimate_long_run_short_run_relationships (.series ys) (.series xs) =
      .ok ((ols_with_const (vals xs) (vals ys)).1,
        (ols_with_const (vals xs) (vals ys)).2,
        ols_no_const (ols_resid (vals xs) (vals ys)).dropLast
          (diffTail (vals ys)),
        ols_resid (vals xs) (vals ys)) ∧
    (ols_resid (vals xs) (vals ys)).length = ys.values.length := by
  constructor
  · unfold estimate_long_run_short_run_relationships checkInputs
    simp [hy, hx, hidx]
  · have hylen := vals_length_of_no_null ys hy
    have hxlen := vals_length_of_no_null xs hx
    have hsame : xs.values.length = ys.values.length := by
      rw [xs.hlen, ys.hlen, hidx]
    unfold ols_resid
    rw [List.length_zipWith, hylen, hxlen, hsame, min_self]

/-- Witness for C2 on concrete three-point series. -/
theorem estimate_performs_two_step_ols_witness :
    numNull wYSeries = 0 ∧
      (estimate_long_run_short_run_relationships (.series wYSeries)
          (.series wXSeries) =
        .ok ((ols_with_const (vals wXSeries) (vals wYSeries)).1,
          (ols_with_const (vals wXSeries) (vals wYSeries)).2,
          ols_no_const (ols_resid (vals wXSeries) (vals wYSeries)).dropLast
            (diffTail (vals wYSeries)),
          ols_resid (vals wXSeries) (vals wYSeries)) ∧
      (ols_resid (vals wXSeries) (vals wYSeries)).length =
        wYSeries.values.length) :=
  ⟨by decide,
    estimate_performs_two_step_ols wYSeries wXSeries (by decide) (by decide)
      (by decide)⟩

/-- Claim C4: on a pair of actual Series inputs whose indexes differ or
where either column has a missing value, both public functions fail with
the corresponding validation error (one of the NaN or index assertions,
never a result), before any regression output is produced. -/
theorem invalid_input_rejected (ys xs : PSeries)
    (h : numNull ys ≠ 0 ∨ numNull xs ≠ 0 ∨ ys.index ≠ xs.index) :
    ∃ e : AssertErr,
      (e = .nanY ∨ e = .nanX ∨ e = .indexMismatch) ∧
      estimate_long_run_short_run_relationships (.series ys) (.series xs) =
        .error e ∧
      ∀ adfuller,
        engle_granger_two_step_cointegration_test adfuller (.series ys)
          (.series xs) = .error e := by
  by_cases hy : numNull ys = 0
  · by_cases hx : numNull xs = 0
    · have hidx : ys.index ≠ xs.index := by tauto
      refine ⟨.indexMismatch, by tauto, ?_, ?_⟩
      · unfold estimate_long_run_short_run_relationships checkInputs
        simp [hy, hx, hidx]
      · intro adfuller
        unfold engle_granger_two_step_cointegration_test
          estimate_long_run_short_run_relationships checkInputs
        simp [hy, hx, hidx]
    · refine ⟨.nanX, by tauto, ?_, ?_⟩
      · unfold estimate_long_run_short_run_relationships checkInputs
        simp [hy, hx]
      · intro adfuller
        unfold engle_granger_two_step_cointegration_test
          estimate_long_run_short_run_relationships checkInputs
        simp [hy, hx]
  · refine ⟨.nanY, by tauto, ?_, ?_⟩
    · unfold estimate_long_run_short_run_relationships checkInputs
      simp [hy]
    · intro adfuller
      unfold engle_granger_two_step_cointegration_test
        estimate_long_run_short_run_relationships checkInputs
      simp [hy]

/-- Witness for C4 on concrete series with mismatched indexes. -/
theorem invalid_input_rejected_witness :
    (numNull wYSeries ≠ 0 ∨ numNull wBadSeries ≠ 0 ∨
        wYSeries.index ≠ wBadSeries.index) ∧
      ∃ e : AssertErr,
        (e = .nanY ∨ e = .nanX ∨ e = .indexMismatch) ∧
        estimate_long_run_short_run_relationships (.series wYSeries)
            (.series wBadSeries) = .error e ∧
        ∀ adfuller,
          engle_granger_two_step_cointegration_test adfuller
            (.series wYSeries) (.series wBadSeries) = .error e :=
  ⟨by decide, invalid_input_rejected wYSeries wBadSeries (by decide)⟩

/-- Claim C5: whenever `estimate_long_run_short_run_relationships`
succeeds with `(c, gamma, alpha, z)`,
`engle_granger_two_step_cointegration_test` discards c, gamma and alpha,
invokes the ADF primitive on z with `maxlag = 1` and `autolag = None`
(no automatic lag selection), and returns exactly the pair the primitive
produces. -/
theorem engle_granger_runs_adf_on_resid
    (adfuller : List ℚ → Nat → Option String → ℚ × ℚ) (y x : PyVal)
    (c g a : ℚ) (z : List ℚ)
    (h : estimate_long_run_short_run_relationships y x = .ok (c, g, a, z)) :
    engle_granger_two_step_cointegration_test adfuller y x =
      .ok (adfuller z 1 none) := by
  cases hc : checkInputs y x with
  | error e =>
    unfold estimate_long_run_short_run_relationships at h
    rw [hc] at h
    cases h
  | ok p =>
    unfold engle_granger_two_step_cointegration_test
    rw [hc, h]

/-- Witness for C5 on concrete three-point series and a concrete ADF
stand-in. -/
theorem engle_granger_runs_adf_on_resid_witness :
    estimate_long_run_short_run_relationships (.series wYSeries)
        (.series wXSeries) = .ok (0, 2, 0, [0, 0, 0]) ∧
      engle_granger_two_step_cointegration_test wAdf (.series wYSeries)
        (.series wXSeries) = .ok (wAdf [0, 0, 0] 1 none) := by
  have h : estimate_long_run_short_run_relationships (.series wYSeries)
      (.series wXSeries) = .ok (0, 2, 0, [0, 0, 0]) := by
    have h1 : estimate_long_run_short_run_relationships (.series wYSeries)
        (.series wXSeries) =
        .ok ((ols_with_const [1, 2, 3] [2, 4, 6]).1,
          (ols_with_const [1, 2, 3] [2, 4, 6]).2,
          ols_no_const (ols_resid [1, 2, 3] [2, 4, 6]).dropLast
            (diffTail [2, 4, 6]),
          ols_resid [1, 2, 3] [2, 4, 6]) := rfl
    have e1 : ols_with_const [1, 2, 3] [2, 4, 6] = (0, 2) := by
      norm_num [ols_with_const, dot, List.zipWith_cons_cons, List.sum_cons]
    have e2 : ols_resid [1, 2, 3] [2, 4, 6] = [0, 0, 0] := by
      norm_num [ols_resid, e1, List.zipWith_cons_cons]
    have e3 : diffTail [2, 4, 6] = [2, 2] := by
      norm_num [diffTail, List.zipWith_cons_cons, List.dropLast]
    have e4 : ols_no_const ([0, 0, 0] : List ℚ).dropLast [2, 2] = 0 := by
      norm_num [ols_no_const, dot, List.zipWith_cons_cons, List.sum_cons,
        List.dropLast]
    rw [h1, e1, e2, e3, e4]
  exact ⟨h, engle_granger_runs_adf_on_resid wAdf (.series wYSeries)
    (.series wXSeries) 0 2 0 [0, 0, 0] h⟩

/-- Claim C10 (implicit): both public functions require their arguments to
be actual `pd.Series` objects; a non-Series first argument fails at the
very first assertion, and a Series first argument with a non-Series second
argument fails at the second assertion, in both cases before any
missing-value, index, or regression processing, whatever the underlying
values are. -/
theorem series_type_asserted_first :
    (∀ (l : List ℚ) (x : PyVal),
      estimate_long_run_short_run_relationships (.floats l) x =
          .error .notSeriesY ∧
      ∀ adfuller,
        engle_granger_two_step_cointegration_test adfuller (.floats l) x =
          .error .notSeriesY) ∧
    (∀ (ys : PSeries) (l : List ℚ),
      estimate_long_run_short_run_relationships (.series ys) (.floats l) =
          .error .notSeriesX ∧
      ∀ adfuller,
        engle_granger_two_step_cointegration_test adfuller (.series ys)
          (.floats l) = .error .notSeriesX) := by
  refine ⟨fun l x => ⟨rfl, fun adfuller => rfl⟩,
    fun ys l => ⟨rfl, fun adfuller => rfl⟩⟩

end AlgoTrading
